import Mathlib

/-!
Verification of the scanner motion and touchdown-detection code of the
scanning-squid repository, file scanner.py.

Voltages, speeds and rates are modelled as rational numbers. The DAQ analog
inputs read back the scanner position; the embedding abstracts the physical
read-back (and the 3-decimal rounding in get_pos) as an exact mirror of the
last commanded position. Hardware writes are recorded explicitly.
-/

namespace ScanningSquid

/-- Scanner axes, in the order x, y, z in which the source iterates them. -/
inductive Axis : Type
  | X
  | Y
  | Z
  deriving DecidableEq, Repr

/-- Temperature modes of the microscope, LT or RT. -/
inductive Temp : Type
  | RT
  | LT
  deriving DecidableEq, Repr

/-- A scanner position or move target: the [x, y, z] voltages. -/
structure Pos where
  x : ℚ
  y : ℚ
  z : ℚ
  deriving DecidableEq, Repr

/-- Component of a position along an axis (indexing new_pos[i]). -/
def Pos.ax (p : Pos) : Axis → ℚ
  | .X => p.x
  | .Y => p.y
  | .Z => p.z

/-- The two configured voltage-limit values for one axis and one temperature
mode, voltage_limits[temp][axis], as magnitudes in V. -/
structure Limits where
  a : ℚ
  b : ℚ
  deriving DecidableEq, Repr

/-- Smaller of the two limit values (min(ax_lim) after sorting). -/
def Limits.lo (l : Limits) : ℚ := min l.a l.b

/-- Larger of the two limit values (max(ax_lim) after sorting). -/
def Limits.hi (l : Limits) : ℚ := max l.a l.b

/-- The scanner configuration fields used by the motion code, after
_parse_unitful_quantities: magnitudes in V, V/s and Hz. -/
structure ScannerCfg where
  voltage_limits : Temp → Axis → Limits
  voltage_retract : Temp → ℚ
  speed : ℚ
  daq_rate : ℚ

/-- Scanner state: configuration, active temperature mode, and the commanded
position mirrored by the DAQ analog inputs. -/
structure ScannerState where
  cfg : ScannerCfg
  temp : Temp
  pos : Pos

/-- Python int(...) applied to a rational: truncation toward zero. -/
def pyInt (q : ℚ) : ℤ := if 0 ≤ q then ⌊q⌋ else -⌊-q⌋

/-- np.linspace p q n: n evenly spaced samples from p to q, endpoints
included. -/
def linspace (p q : ℚ) (n : ℕ) : List ℚ :=
  (List.range n).map fun i : ℕ => p + (q - p) * (i : ℚ) / ((n : ℚ) - 1)

/-- Maximum absolute per-axis displacement, np.max(np.abs(pos1 - pos0)). -/
def maxRampDist (pos0 pos1 : Pos) : ℚ :=
  max |pos1.x - pos0.x| (max |pos1.y - pos0.y| |pos1.z - pos0.z|)

/-- Number of ramp samples: int(ramp_time * self.daq_rate) + 2 where
ramp_time = max_ramp_distance / speed. -/
def rampNpts (cfg : ScannerCfg) (pos0 pos1 : Pos) (speed : ℚ) : ℕ :=
  (pyInt (maxRampDist pos0 pos1 / speed * cfg.daq_rate) + 2).toNat

/-- Scanner.make_ramp. Returns the warning flag (the source logs a warning when
the requested speed exceeds the configured maximum, and leaves speed unchanged)
together with the 3-row ramp [x_row, y_row, z_row]. -/
def make_ramp (cfg : ScannerCfg) (pos0 pos1 : Pos) (speed : ℚ) :
    Bool × List (List ℚ) :=
  (decide (cfg.speed < speed),
   [linspace pos0.x pos1.x (rampNpts cfg pos0 pos1 speed),
    linspace pos0.y pos1.y (rampNpts cfg pos0 pos1 speed),
    linspace pos0.z pos1.z (rampNpts cfg pos0 pos1 speed)])

/-- A requested axis value is rejected exactly when it lies strictly outside
the sorted limits: new_pos[i] < min(ax_lim) or new_pos[i] > max(ax_lim). -/
def axisOutOfRange (l : Limits) (v : ℚ) : Prop := v < l.lo ∨ l.hi < v

instance (l : Limits) (v : ℚ) : Decidable (axisOutOfRange l v) :=
  inferInstanceAs (Decidable (v < l.lo ∨ l.hi < v))

/-- The ValueError raised by goto: it names the offending axis and the sorted
voltage limits of that axis. -/
structure OutOfRangeError where
  ax : Axis
  lo : ℚ
  hi : ℚ
  deriving DecidableEq, Repr

/-- First out-of-range axis of a requested position, visiting the axes in the
order x, y, z of the validation loop of goto. -/
def firstBadAxis (s : ScannerState) (newPos : Pos) : Option OutOfRangeError :=
  if axisOutOfRange (s.cfg.voltage_limits s.temp .X) newPos.x then
    some ⟨.X, (s.cfg.voltage_limits s.temp .X).lo, (s.cfg.voltage_limits s.temp .X).hi⟩
  else if axisOutOfRange (s.cfg.voltage_limits s.temp .Y) newPos.y then
    some ⟨.Y, (s.cfg.voltage_limits s.temp .Y).lo, (s.cfg.voltage_limits s.temp .Y).hi⟩
  else if axisOutOfRange (s.cfg.voltage_limits s.temp .Z) newPos.z then
    some ⟨.Z, (s.cfg.voltage_limits s.temp .Z).lo, (s.cfg.voltage_limits s.temp .Z).hi⟩
  else none

/-- One hardware write: a clocked analog-output ramp from src to dst at the
given speed; the sample buffer written is (make_ramp cfg src dst speed).2. -/
structure RampWrite where
  src : Pos
  dst : Pos
  speed : ℚ
  deriving DecidableEq, Repr

/-- The speed argument of goto and retract as the source passes it around:
None, a unit string such as the literal 2 V/s (carrying its magnitude), or a
bare numeric magnitude, which is the form goto forwards to retract and to its
recursive calls on the retract_first path. -/
inductive SpeedArg : Type
  | omitted
  | unitStr (q : ℚ)
  | magnitude (q : ℚ)
  deriving DecidableEq, Repr

/-- Errors raised by goto before any hardware write: the out-of-range
ValueError, or the pint DimensionalityError raised when a bare dimensionless
number is converted with .to, as in self.Q_(speed).to applied to a numeric
magnitude. -/
inductive GotoErr : Type
  | outOfRange (e : OutOfRangeError)
  | dimensionality
  deriving DecidableEq, Repr

/-- Speed resolution shared by goto (scanner.py lines 114-117) and retract
(lines 158-161): None means the configured default Quantity, converted
cleanly; a unit string parses to a V/s quantity; a bare number is
dimensionless, and pint raises DimensionalityError from .to applied to it. -/
def parseSpeed (cfg : ScannerCfg) : SpeedArg → Except GotoErr ℚ
  | .omitted => .ok cfg.speed
  | .unitStr q => .ok q
  | .magnitude _ => .error .dimensionality

/-- The validate-and-write core of goto once the speed has been resolved to
the magnitude sp: validate each axis against the limits of the active
temperature mode, then write a single three-axis ramp from the current
position to newPos. Returns the hardware writes performed together with the
outcome. -/
def goto_direct (s : ScannerState) (newPos : Pos) (sp : ℚ) :
    List RampWrite × Except GotoErr ScannerState :=
  match firstBadAxis s newPos with
  | some e => ([], .error (.outOfRange e))
  | none => ([⟨s.pos, newPos, sp⟩], .ok { s with pos := newPos })

/-- An inner recursive self.goto call with retract_first=False: parse the
speed argument first (scanner.py line 117, raising on a bare number), then
validate and write. -/
def goto_inner (s : ScannerState) (newPos : Pos) (speed : SpeedArg) :
    List RampWrite × Except GotoErr ScannerState :=
  match parseSpeed s.cfg speed with
  | .error e => ([], .error e)
  | .ok sp => goto_direct s newPos sp

/-- Scanner.retract: re-parse the speed argument with self.Q_(speed).to
(scanner.py line 161, raising DimensionalityError on a bare numeric
magnitude), then move only z to the retract voltage of the active
temperature mode via goto, passing the speed re-formatted as a unit
string. -/
def retract (s : ScannerState) (speed : SpeedArg) :
    List RampWrite × Except GotoErr ScannerState :=
  match parseSpeed s.cfg speed with
  | .error e => ([], .error e)
  | .ok sp =>
    goto_inner s ⟨s.pos.x, s.pos.y, s.cfg.voltage_retract s.temp⟩ (.unitStr sp)

/-- Scanner.goto: resolve the speed argument (line 117, before the validation
loop, raising on a bare number), validate every axis of the target, then
either write one direct three-axis ramp or, with retract_first, run the
staged maneuver. The source forwards the resolved numeric magnitude to
retract and to the two recursive goto calls (lines 137-141); each of those
re-parses it as a unit quantity, and that re-parse raises
DimensionalityError, so the staged path errors inside retract before any
write. -/
def goto (s : ScannerState) (newPos : Pos) (retract_first : Bool)
    (speed : SpeedArg) : List RampWrite × Except GotoErr ScannerState :=
  match parseSpeed s.cfg speed with
  | .error e => ([], .error e)
  | .ok sp =>
    match firstBadAxis s newPos with
    | some e => ([], .error (.outOfRange e))
    | none =>
      if retract_first then
        match retract s (.magnitude sp) with
        | (w1, .error e) => (w1, .error e)
        | (w1, .ok s1) =>
          match goto_inner s1 ⟨newPos.x, newPos.y, s1.pos.z⟩ (.magnitude sp) with
          | (w2, .error e) => (w1 ++ w2, .error e)
          | (w2, .ok s2) =>
            match goto_inner s2 ⟨s2.pos.x, s2.pos.y, newPos.z⟩ (.magnitude sp) with
            | (w3, r) => (w1 ++ w2 ++ w3, r)
      else ([⟨s.pos, newPos, sp⟩], .ok { s with pos := newPos })

/-- The tail of Scanner.__init__: after parsing the configuration it commands
self.goto([0, 0, 0]) with default arguments (no retract, no speed argument).
hw is the scanner position read back at the start of that move. -/
def scanner_init (cfg : ScannerCfg) (temp : Temp) (hw : Pos) :
    List RampWrite × Except GotoErr ScannerState :=
  goto ⟨cfg, temp, hw⟩ ⟨0, 0, 0⟩ false .omitted

set_option linter.unnecessarySeqFocus false in
theorem firstBadAxis_eq_none (s : ScannerState) (t : Pos) :
    firstBadAxis s t = none ↔
      ∀ ax : Axis, ¬ axisOutOfRange (s.cfg.voltage_limits s.temp ax) (t.ax ax) := by
  unfold firstBadAxis
  constructor
  · intro h ax
    split_ifs at h <;> cases ax <;> simp_all [Pos.ax]
  · intro h
    have hx := h .X
    have hy := h .Y
    have hz := h .Z
    simp only [Pos.ax] at hx hy hz
    rw [if_neg hx, if_neg hy, if_neg hz]

theorem firstBadAxis_some_spec (s : ScannerState) (t : Pos) (e : OutOfRangeError)
    (h : firstBadAxis s t = some e) :
    axisOutOfRange (s.cfg.voltage_limits s.temp e.ax) (t.ax e.ax) ∧
      e.lo = (s.cfg.voltage_limits s.temp e.ax).lo ∧
      e.hi = (s.cfg.voltage_limits s.temp e.ax).hi := by
  unfold firstBadAxis at h
  split_ifs at h with h1 h2 h3 <;>
    (injection h with h; subst h; exact ⟨by simpa [Pos.ax] using ‹_›, rfl, rfl⟩)

theorem linspace_length (p q : ℚ) (n : ℕ) : (linspace p q n).length = n := by
  rw [linspace, List.length_map, List.length_range]

theorem linspace_head (p q : ℚ) (n : ℕ) (h : n ≠ 0) :
    (linspace p q n).head? = some p := by
  obtain ⟨m, rfl⟩ := Nat.exists_eq_succ_of_ne_zero h
  simp [linspace, List.range_succ_eq_map]

theorem linspace_getLast (p q : ℚ) (n : ℕ) (h : 2 ≤ n) :
    (linspace p q n).getLast? = some q := by
  obtain ⟨m, rfl⟩ : ∃ m, n = m + 1 := ⟨n - 1, by omega⟩
  unfold linspace
  rw [List.range_succ, List.map_append, List.map_singleton, List.getLast?_concat]
  have hm : (m : ℚ) ≠ 0 := by
    have : m ≠ 0 := by omega
    exact_mod_cast this
  have hcast : ((m + 1 : ℕ) : ℚ) - 1 = (m : ℚ) := by push_cast; ring
  congr 1
  rw [hcast, mul_div_assoc, div_self hm]
  ring

theorem linspace_const (p : ℚ) (n : ℕ) : ∀ v ∈ linspace p p n, v = p := by
  intro v hv
  simp only [linspace, List.mem_map, List.mem_range] at hv
  obtain ⟨i, _, rfl⟩ := hv
  simp

theorem pyInt_of_nonneg (q : ℚ) (h : 0 ≤ q) : pyInt q = ⌊q⌋ := if_pos h

theorem maxRampDist_nonneg (p0 p1 : Pos) : 0 ≤ maxRampDist p0 p1 :=
  le_trans (abs_nonneg _) (le_max_left _ _)

theorem rampNpts_cast (cfg : ScannerCfg) (p0 p1 : Pos) (speed : ℚ)
    (hs : 0 < speed) (hr : 0 ≤ cfg.daq_rate) :
    (rampNpts cfg p0 p1 speed : ℤ) =
      ⌊maxRampDist p0 p1 / speed * cfg.daq_rate⌋ + 2 := by
  have hq : 0 ≤ maxRampDist p0 p1 / speed * cfg.daq_rate :=
    mul_nonneg (div_nonneg (maxRampDist_nonneg p0 p1) hs.le) hr
  have h0 : 0 ≤ ⌊maxRampDist p0 p1 / speed * cfg.daq_rate⌋ := Int.floor_nonneg.mpr hq
  unfold rampNpts
  rw [pyInt_of_nonneg _ hq, Int.toNat_of_nonneg (by omega)]

theorem rampNpts_two_le (cfg : ScannerCfg) (p0 p1 : Pos) (speed : ℚ)
    (hs : 0 < speed) (hr : 0 ≤ cfg.daq_rate) :
    2 ≤ rampNpts cfg p0 p1 speed := by
  have := rampNpts_cast cfg p0 p1 speed hs hr
  have hq : 0 ≤ maxRampDist p0 p1 / speed * cfg.daq_rate :=
    mul_nonneg (div_nonneg (maxRampDist_nonneg p0 p1) hs.le) hr
  have h0 : 0 ≤ ⌊maxRampDist p0 p1 / speed * cfg.daq_rate⌋ := Int.floor_nonneg.mpr hq
  omega

theorem rampNpts_mono (cfg : ScannerCfg) (p0 p1 : Pos) (s1 s2 : ℚ)
    (h1 : 0 < s1) (h2 : 0 < s2) (hr : 0 ≤ cfg.daq_rate)
    (hinv : 1 / s1 ≤ 1 / s2) :
    rampNpts cfg p0 p1 s1 ≤ rampNpts cfg p0 p1 s2 := by
  have hd := maxRampDist_nonneg p0 p1
  have key : maxRampDist p0 p1 / s1 * cfg.daq_rate ≤
      maxRampDist p0 p1 / s2 * cfg.daq_rate := by
    apply mul_le_mul_of_nonneg_right _ hr
    rw [div_eq_mul_one_div, div_eq_mul_one_div (maxRampDist p0 p1) s2]
    exact mul_le_mul_of_nonneg_left hinv hd
  have c1 := rampNpts_cast cfg p0 p1 s1 h1 hr
  have c2 := rampNpts_cast cfg p0 p1 s2 h2 hr
  have := Int.floor_le_floor (α := ℚ) key
  omega

/-- A demonstration configuration: every axis limited to [-10 V, 10 V],
retract voltage 5 V, maximum speed 2 V/s, DAQ rate 1 Hz. -/
def demoCfg : ScannerCfg where
  voltage_limits := fun _ _ => ⟨-10, 10⟩
  voltage_retract := fun _ => 5
  speed := 2
  daq_rate := 1

/-- A demonstration state at position [1, 2, 3] V in RT mode. -/
def demoState : ScannerState := ⟨demoCfg, .RT, ⟨1, 2, 3⟩⟩

/-- A configuration whose z-axis limits [1 V, 10 V] exclude 0 V. -/
def badCfg : ScannerCfg where
  voltage_limits := fun _ ax =>
    match ax with
    | .Z => ⟨1, 10⟩
    | _ => ⟨-10, 10⟩
  voltage_retract := fun _ => 5
  speed := 2
  daq_rate := 1

theorem goto_bad_target (s : ScannerState) (t : Pos) (rf : Bool)
    (sp : SpeedArg) (v : ℚ) (hsp : parseSpeed s.cfg sp = Except.ok v)
    (ax : Axis)
    (h : axisOutOfRange (s.cfg.voltage_limits s.temp ax) (t.ax ax)) :
    (goto s t rf sp).1 = [] ∧
      ∃ e : OutOfRangeError,
        (goto s t rf sp).2 = Except.error (GotoErr.outOfRange e) ∧
        axisOutOfRange (s.cfg.voltage_limits s.temp e.ax) (t.ax e.ax) ∧
        e.lo = (s.cfg.voltage_limits s.temp e.ax).lo ∧
        e.hi = (s.cfg.voltage_limits s.temp e.ax).hi := by
  have hne : firstBadAxis s t ≠ none := by
    rw [Ne, firstBadAxis_eq_none]
    push_neg
    exact ⟨ax, h⟩
  obtain ⟨e, he⟩ := Option.ne_none_iff_exists'.mp hne
  obtain ⟨h1, h2, h3⟩ := firstBadAxis_some_spec s t e he
  refine ⟨?_, e, ?_, h1, h2, h3⟩ <;> simp [goto, hsp, he]

/-- C1: whenever some axis of the target lies outside the voltage limits of
the active temperature mode, goto (called with no speed argument or with a
unit string: any speed argument its line 117 parse accepts) performs zero
hardware writes and raises an out-of-range error naming an offending axis
together with the sorted limits of that axis; no analog-output task is
created and no partial move occurs. -/
theorem goto_out_of_range_no_writes (s : ScannerState) (t : Pos) (rf : Bool)
    (sp : SpeedArg) (v : ℚ) (hsp : parseSpeed s.cfg sp = Except.ok v)
    (ax : Axis)
    (h : axisOutOfRange (s.cfg.voltage_limits s.temp ax) (t.ax ax)) :
    (goto s t rf sp).1 = [] ∧
      ∃ e : OutOfRangeError,
        (goto s t rf sp).2 = Except.error (GotoErr.outOfRange e) ∧
        axisOutOfRange (s.cfg.voltage_limits s.temp e.ax) (t.ax e.ax) ∧
        e.lo = (s.cfg.voltage_limits s.temp e.ax).lo ∧
        e.hi = (s.cfg.voltage_limits s.temp e.ax).hi :=
  goto_bad_target s t rf sp v hsp ax h

theorem goto_out_of_range_no_writes_witness :
    parseSpeed demoState.cfg SpeedArg.omitted = Except.ok 2 ∧
    axisOutOfRange (demoState.cfg.voltage_limits demoState.temp .Y)
      ((Pos.mk 0 11 0).ax .Y) ∧
    ((goto demoState ⟨0, 11, 0⟩ false SpeedArg.omitted).1 = [] ∧
      ∃ e : OutOfRangeError,
        (goto demoState ⟨0, 11, 0⟩ false SpeedArg.omitted).2 =
          Except.error (GotoErr.outOfRange e) ∧
        axisOutOfRange (demoState.cfg.voltage_limits demoState.temp e.ax)
          ((Pos.mk 0 11 0).ax e.ax) ∧
        e.lo = (demoState.cfg.voltage_limits demoState.temp e.ax).lo ∧
        e.hi = (demoState.cfg.voltage_limits demoState.temp e.ax).hi) :=
  ⟨rfl, by decide,
   goto_out_of_range_no_writes demoState ⟨0, 11, 0⟩ false SpeedArg.omitted 2
     rfl .Y (by decide)⟩

/-- C2 (code bug): the documented three-stage retract_first maneuver never
runs. goto resolves the speed argument to a bare numeric magnitude
(scanner.py lines 114-117) and forwards it to retract (line 137), whose unit
re-parse self.Q_(speed).to (line 161) raises DimensionalityError on the
dimensionless number before any hardware write; the two recursive goto calls
(lines 139 and 141) would raise the same way. Every retract_first call
therefore returns with zero writes and never succeeds; the demonstration
input, a valid target from a valid position, errors instead of performing
the three moves the claim and the goto docstring describe. -/
theorem goto_retract_first_never_moves :
    (∀ (s : ScannerState) (t : Pos) (sp : SpeedArg),
      (goto s t true sp).1 = [] ∧
        ∀ s' : ScannerState, (goto s t true sp).2 ≠ Except.ok s') ∧
    goto demoState ⟨4, 5, 6⟩ true SpeedArg.omitted =
      ([], Except.error GotoErr.dimensionality) := by
  constructor
  · intro s t sp
    cases hp : parseSpeed s.cfg sp with
    | error e => simp [goto, hp]
    | ok v =>
      cases hb : firstBadAxis s t with
      | some e => simp [goto, hp, hb]
      | none =>
        simp only [goto, hp, hb, if_true]
        simp [retract, parseSpeed]
  · rfl

/-- C6: make_ramp returns a 3-row ramp; the sample count is
floor((max absolute per-axis displacement / speed) * daq_rate) + 2, hence at
least 2; each row is the linear interpolation of its axis with first sample
the start value and last sample the end value exactly; and for the same
displacement the sample count is monotone non-decreasing in 1/speed. -/
theorem make_ramp_spec (cfg : ScannerCfg) (pos0 pos1 : Pos) (speed speed2 : ℚ)
    (hs : 0 < speed) (hr : 0 ≤ cfg.daq_rate) (hs2 : 0 < speed2)
    (hinv : 1 / speed ≤ 1 / speed2) :
    (make_ramp cfg pos0 pos1 speed).2 =
      [linspace pos0.x pos1.x (rampNpts cfg pos0 pos1 speed),
       linspace pos0.y pos1.y (rampNpts cfg pos0 pos1 speed),
       linspace pos0.z pos1.z (rampNpts cfg pos0 pos1 speed)] ∧
    (rampNpts cfg pos0 pos1 speed : ℤ) =
      ⌊maxRampDist pos0 pos1 / speed * cfg.daq_rate⌋ + 2 ∧
    2 ≤ rampNpts cfg pos0 pos1 speed ∧
    (∀ r ∈ (make_ramp cfg pos0 pos1 speed).2, r.length = rampNpts cfg pos0 pos1 speed) ∧
    (make_ramp cfg pos0 pos1 speed).2.map List.head? =
      [some pos0.x, some pos0.y, some pos0.z] ∧
    (make_ramp cfg pos0 pos1 speed).2.map List.getLast? =
      [some pos1.x, some pos1.y, some pos1.z] ∧
    rampNpts cfg pos0 pos1 speed ≤ rampNpts cfg pos0 pos1 speed2 := by
  have h2 := rampNpts_two_le cfg pos0 pos1 speed hs hr
  have hne : rampNpts cfg pos0 pos1 speed ≠ 0 := by omega
  refine ⟨rfl, rampNpts_cast cfg pos0 pos1 speed hs hr, h2, ?_, ?_, ?_,
    rampNpts_mono cfg pos0 pos1 speed speed2 hs hs2 hr hinv⟩
  · intro r hr'
    simp only [make_ramp, List.mem_cons, List.not_mem_nil, or_false] at hr'
    rcases hr' with rfl | rfl | rfl <;> exact linspace_length _ _ _
  · simp only [make_ramp, List.map_cons, List.map_nil]
    rw [linspace_head _ _ _ hne, linspace_head _ _ _ hne, linspace_head _ _ _ hne]
  · simp only [make_ramp, List.map_cons, List.map_nil]
    rw [linspace_getLast _ _ _ h2, linspace_getLast _ _ _ h2, linspace_getLast _ _ _ h2]

theorem make_ramp_spec_witness :
    (0 : ℚ) < 2 ∧ (0 : ℚ) ≤ demoCfg.daq_rate ∧ (0 : ℚ) < 1 ∧
      (1 : ℚ) / 2 ≤ 1 / 1 ∧
    ((make_ramp demoCfg ⟨0, 0, 0⟩ ⟨10, 0, 0⟩ 2).2 =
      [linspace 0 10 (rampNpts demoCfg ⟨0, 0, 0⟩ ⟨10, 0, 0⟩ 2),
       linspace 0 0 (rampNpts demoCfg ⟨0, 0, 0⟩ ⟨10, 0, 0⟩ 2),
       linspace 0 0 (rampNpts demoCfg ⟨0, 0, 0⟩ ⟨10, 0, 0⟩ 2)] ∧
    (rampNpts demoCfg ⟨0, 0, 0⟩ ⟨10, 0, 0⟩ 2 : ℤ) =
      ⌊maxRampDist ⟨0, 0, 0⟩ ⟨10, 0, 0⟩ / 2 * demoCfg.daq_rate⌋ + 2 ∧
    2 ≤ rampNpts demoCfg ⟨0, 0, 0⟩ ⟨10, 0, 0⟩ 2 ∧
    (∀ r ∈ (make_ramp demoCfg ⟨0, 0, 0⟩ ⟨10, 0, 0⟩ 2).2,
      r.length = rampNpts demoCfg ⟨0, 0, 0⟩ ⟨10, 0, 0⟩ 2) ∧
    (make_ramp demoCfg ⟨0, 0, 0⟩ ⟨10, 0, 0⟩ 2).2.map List.head? =
      [some 0, some 0, some 0] ∧
    (make_ramp demoCfg ⟨0, 0, 0⟩ ⟨10, 0, 0⟩ 2).2.map List.getLast? =
      [some 10, some 0, some 0] ∧
    rampNpts demoCfg ⟨0, 0, 0⟩ ⟨10, 0, 0⟩ 2 ≤ rampNpts demoCfg ⟨0, 0, 0⟩ ⟨10, 0, 0⟩ 1) :=
  ⟨by decide, by decide, by decide, by with_unfolding_all decide,
   make_ramp_spec demoCfg ⟨0, 0, 0⟩ ⟨10, 0, 0⟩ 2 1 (by decide) (by decide)
     (by decide) (by with_unfolding_all decide)⟩

/-- C7 (code bug): when the requested speed exceeds the configured maximum,
make_ramp emits the warning announcing a clamp but then uses the requested
speed unchanged: with maximum speed 2 V/s and DAQ rate 1 Hz, a 10 V move
requested at 20 V/s yields a 2-sample ramp, not the 7-sample ramp that the
announced maximum speed would produce. -/
theorem make_ramp_speed_not_clamped :
    (make_ramp demoCfg ⟨0, 0, 0⟩ ⟨10, 0, 0⟩ 20).1 = true ∧
    (make_ramp demoCfg ⟨0, 0, 0⟩ ⟨10, 0, 0⟩ 20).2 ≠
      (make_ramp demoCfg ⟨0, 0, 0⟩ ⟨10, 0, 0⟩ demoCfg.speed).2 :=
  ⟨by decide, by with_unfolding_all decide⟩

/-- C9: Scanner.__init__ ends by commanding one full three-axis ramp to
[0, 0, 0]: when 0 V lies within every axis limit of the active temperature
mode the single hardware write ramps from the read-back position to the
origin and the commanded position afterwards is the origin; when 0 V lies
outside some axis limit, construction raises the out-of-range error with no
hardware write performed. -/
theorem scanner_init_spec (cfg : ScannerCfg) (temp : Temp) (hw : Pos) :
    ((∀ ax : Axis, ¬ axisOutOfRange (cfg.voltage_limits temp ax) 0) →
      scanner_init cfg temp hw =
        ([⟨hw, ⟨0, 0, 0⟩, cfg.speed⟩], Except.ok ⟨cfg, temp, ⟨0, 0, 0⟩⟩)) ∧
    (∀ ax : Axis, axisOutOfRange (cfg.voltage_limits temp ax) 0 →
      (scanner_init cfg temp hw).1 = [] ∧
        ∃ e : OutOfRangeError,
          (scanner_init cfg temp hw).2 = Except.error (GotoErr.outOfRange e) ∧
          axisOutOfRange (cfg.voltage_limits temp e.ax) 0) := by
  constructor
  · intro h
    have h0 : firstBadAxis ⟨cfg, temp, hw⟩ ⟨0, 0, 0⟩ = none := by
      rw [firstBadAxis_eq_none]
      intro ax
      cases ax
      exacts [h .X, h .Y, h .Z]
    show goto ⟨cfg, temp, hw⟩ ⟨0, 0, 0⟩ false .omitted = _
    simp [goto, parseSpeed, h0]
  · intro ax h
    have h' : axisOutOfRange (cfg.voltage_limits temp ax) ((Pos.mk 0 0 0).ax ax) := by
      cases ax <;> exact h
    obtain ⟨hw0, e, he, hax, -, -⟩ :=
      goto_bad_target ⟨cfg, temp, hw⟩ ⟨0, 0, 0⟩ false .omitted cfg.speed rfl ax h'
    refine ⟨hw0, e, he, ?_⟩
    rcases e with ⟨eax, lo, hi⟩
    cases eax <;> exact hax

theorem scanner_init_spec_witness :
    (∀ ax : Axis, ¬ axisOutOfRange (demoCfg.voltage_limits .RT ax) 0) ∧
    scanner_init demoCfg .RT ⟨1, 2, 3⟩ =
      ([⟨⟨1, 2, 3⟩, ⟨0, 0, 0⟩, 2⟩], Except.ok ⟨demoCfg, .RT, ⟨0, 0, 0⟩⟩) ∧
    (axisOutOfRange (badCfg.voltage_limits .RT .Z) 0 ∧
      (scanner_init badCfg .RT ⟨1, 2, 3⟩).1 = [] ∧
      ∃ e : OutOfRangeError,
        (scanner_init badCfg .RT ⟨1, 2, 3⟩).2 = Except.error (GotoErr.outOfRange e) ∧
        axisOutOfRange (badCfg.voltage_limits .RT e.ax) 0) :=
  ⟨by intro ax; cases ax <;> decide,
   (scanner_init_spec demoCfg .RT ⟨1, 2, 3⟩).1 (by intro ax; cases ax <;> decide),
   by decide,
   (scanner_init_spec badCfg .RT ⟨1, 2, 3⟩).2 .Z (by decide)⟩

/-! ## Touchdown detection: Scanner.check_for_td -/

/-- The contiguous slice f[a:b] (indices a to b-1) of a sampled series. -/
def slice (f : ℕ → ℚ) (a b : ℕ) : List ℚ :=
  (List.range (b - a)).map fun k : ℕ => f (a + k)

/-- Modelled from the spec: utils.fit_line, imported by scanner.py, is not
under src. Following the specification, it fits a least-squares line to the
points (xs i, ys i) and returns ((slope, intercept), residual sum of
squares). -/
def fit_line (xs ys : List ℚ) : (ℚ × ℚ) × ℚ :=
  let n : ℚ := xs.length
  let sx := xs.sum
  let sy := ys.sum
  let sxx := (xs.map fun a => a * a).sum
  let sxy := (List.zipWith (fun a b => a * b) xs ys).sum
  let slope := (n * sxy - sx * sy) / (n * sxx - sx * sx)
  let intercept := (sy - slope * sx) / n
  ((slope, intercept),
   (List.zipWith (fun a b => (b - (slope * a + intercept)) ^ 2) xs ys).sum)

/-- The touchdown constants read from tdc_plot at the top of check_for_td, as
magnitudes: max_delta_cap and initial_cap in the capacitance unit, max_slope
in capacitance unit per V, and the integer constants N_fit_min, N_fit_max
(read but never used by the source) and N_window. railScale is the factor
converting a raw signal sample to the CAP lockin output voltage in V (the
quantity cdata * cap_unit / prefactor); the railing gate compares its
magnitude with 5 V. -/
structure TDConsts where
  max_deltaC : ℚ
  initial_cap : ℚ
  max_slope : ℚ
  railScale : ℚ
  nfitmin : ℕ
  nfitmax : ℕ
  nwindow : ℕ

/-- The mutable touchdown outputs: Scanner.td_has_occurred, Scanner.td_height,
and the result fields td_height, pre_td_slope, post_td_slope of tdc_plot (the
slopes are stored with their numeric magnitudes). -/
structure TDState where
  td_has_occurred : Bool
  td_height : Option ℚ
  plot_td_height : Option ℚ
  pre_td_slope : Option ℚ
  post_td_slope : Option ℚ
  deriving DecidableEq, Repr

/-- Total residual sum of squares at split candidate i: the residual of the
left fit over hdata[pt-nwindow:i+1] plus the residual of the right fit over
hdata[i:], the quantity rms0 + rms1 of the source loop. -/
def totalRms (c : TDConsts) (heights cap : ℕ → ℚ) (pt : ℕ) (i : ℕ) : ℚ :=
  (fit_line (slice heights (pt - c.nwindow) (i + 1))
    (slice cap (pt - c.nwindow) (i + 1))).2 +
  (fit_line (slice heights i (pt + 1)) (slice cap i (pt + 1))).2

/-- One step of the split-point search loop: replace the running minimum when
the candidate total residual is strictly smaller (np.inf at the start is
represented by none, so the first candidate always replaces it). -/
def splitStep (c : TDConsts) (heights cap : ℕ → ℚ) (pt : ℕ)
    (acc : ℕ × Option ℚ) (i : ℕ) : ℕ × Option ℚ :=
  match acc.2 with
  | none => (i, some (totalRms c heights cap pt i))
  | some m =>
    if totalRms c heights cap pt i < m then (i, some (totalRms c heights cap pt i))
    else acc

/-- The candidate split indices range(pt - nwindow + nfitmin, pt - nfitmin). -/
def splitCandidates (c : TDConsts) (pt : ℕ) : List ℕ :=
  List.range' (pt - c.nwindow + c.nfitmin)
    (pt - c.nfitmin - (pt - c.nwindow + c.nfitmin))

/-- The split index imin selected by the changepoint search: the fold of the
source loop starting from imin = pt - nwindow + nfitmin and rmsmin = np.inf. -/
def select_split (c : TDConsts) (heights cap : ℕ → ℚ) (pt : ℕ) : ℕ :=
  ((splitCandidates c pt).foldl (splitStep c heights cap pt)
    (pt - c.nwindow + c.nfitmin, none)).1

/-- The two lines (p0, p1) refitted at the selected split imin: p0 over
hdata[pt-nwindow:imin+1], p1 over hdata[imin:], each as (slope, intercept). -/
def td_fits (c : TDConsts) (heights cap : ℕ → ℚ) (pt : ℕ) : (ℚ × ℚ) × (ℚ × ℚ) :=
  ((fit_line (slice heights (pt - c.nwindow) (select_split c heights cap pt + 1))
      (slice cap (pt - c.nwindow) (select_split c heights cap pt + 1))).1,
   (fit_line (slice heights (select_split c heights cap pt) (pt + 1))
      (slice cap (select_split c heights cap pt) (pt + 1))).1)

/-- Scanner.check_for_td at loop point pt. heights and cap are the planned
height series (length N) and the acquired signal series; at point pt the
slices cdata = cap[0..pt] and hdata = heights[0..pt] are in use. prior holds
the prior values of the mutable result fields. Returns the boolean handed to
the loop (True breaks it) together with the updated result fields. The safety
gates, the early slope-check return and the fall-through returns of the
source are laid out as nested conditionals. -/
def check_for_td (c : TDConsts) (heights cap : ℕ → ℚ) (N : ℕ) (prior : TDState)
    (pt : ℕ) : Bool × TDState :=
  let st0 : TDState := { prior with td_has_occurred := false, td_height := none }
  if 1 < pt ∧ (|cap pt - c.initial_cap| > c.max_deltaC ∨
      |cap (pt - 1) - c.initial_cap| > c.max_deltaC) then
    (true, st0)
  else if 1 < pt ∧ (|cap pt * c.railScale| > 5 ∨
      |cap (pt - 1) * c.railScale| > 5) then
    (true, st0)
  else if pt < N ∧ c.nwindow + 10 < pt then
    let p0 := (td_fits c heights cap pt).1
    let p1 := (td_fits c heights cap pt).2
    if |p0.1| > c.max_slope then
      (true, st0)
    else if |p0.1 - p1.1| > c.max_slope then
      (true, { st0 with
        td_has_occurred := true
        td_height := some ((p1.2 - p0.2) / (p0.1 - p1.1))
        plot_td_height := some ((p1.2 - p0.2) / (p0.1 - p1.1))
        pre_td_slope := some p0.1
        post_td_slope := some p1.1 })
    else
      (false, st0)
  else if N ≤ pt then
    (true, { st0 with
      plot_td_height := none
      pre_td_slope := none
      post_td_slope := none })
  else
    (false, st0)

theorem splitStep_foldl_spec (c : TDConsts) (heights cap : ℕ → ℚ) (pt : ℕ) :
    ∀ (l : List ℕ) (j : ℕ), l.Pairwise (· < ·) → (∀ i ∈ l, j < i) →
      ∃ r : ℕ,
        l.foldl (splitStep c heights cap pt) (j, some (totalRms c heights cap pt j)) =
          (r, some (totalRms c heights cap pt r)) ∧
        (r = j ∨ r ∈ l) ∧
        totalRms c heights cap pt r ≤ totalRms c heights cap pt j ∧
        (∀ i ∈ l, totalRms c heights cap pt r ≤ totalRms c heights cap pt i) ∧
        (r ≠ j → totalRms c heights cap pt r < totalRms c heights cap pt j) ∧
        (∀ i ∈ l, i < r → totalRms c heights cap pt r < totalRms c heights cap pt i) := by
  intro l
  induction l with
  | nil =>
    intro j _ _
    exact ⟨j, rfl, Or.inl rfl, le_refl _, by simp, fun h => absurd rfl h, by simp⟩
  | cons x xs ih =>
    intro j hpw hlt
    have hx : splitStep c heights cap pt (j, some (totalRms c heights cap pt j)) x =
        if totalRms c heights cap pt x < totalRms c heights cap pt j then
          (x, some (totalRms c heights cap pt x))
        else (j, some (totalRms c heights cap pt j)) := rfl
    rw [List.foldl_cons, hx]
    obtain ⟨hhd, hpw'⟩ := List.pairwise_cons.mp hpw
    by_cases hcmp : totalRms c heights cap pt x < totalRms c heights cap pt j
    · rw [if_pos hcmp]
      obtain ⟨r, heq, hmem, hlex, hleall, hne, hfirst⟩ := ih x hpw' hhd
      refine ⟨r, heq, ?_, le_of_lt (lt_of_le_of_lt hlex hcmp), ?_, ?_, ?_⟩
      · rcases hmem with rfl | hm
        · exact Or.inr (List.mem_cons_self _ _)
        · exact Or.inr (List.mem_cons_of_mem _ hm)
      · intro i hi
        rcases List.mem_cons.mp hi with rfl | hm
        · exact hlex
        · exact hleall i hm
      · intro _
        exact lt_of_le_of_lt hlex hcmp
      · intro i hi hir
        rcases List.mem_cons.mp hi with rfl | hm
        · exact hne fun hrx => absurd (hrx ▸ hir) (lt_irrefl _)
        · exact hfirst i hm hir
    · rw [if_neg hcmp]
      obtain ⟨r, heq, hmem, hlej, hleall, hne, hfirst⟩ :=
        ih j hpw' fun i hi => hlt i (List.mem_cons_of_mem _ hi)
      refine ⟨r, heq, ?_, hlej, ?_, hne, ?_⟩
      · rcases hmem with rfl | hm
        · exact Or.inl rfl
        · exact Or.inr (List.mem_cons_of_mem _ hm)
      · intro i hi
        rcases List.mem_cons.mp hi with rfl | hm
        · exact le_trans hlej (not_lt.mp hcmp)
        · exact hleall i hm
      · intro i hi hir
        rcases List.mem_cons.mp hi with rfl | hm
        · have hrj : r ≠ j := by
            intro hrjeq
            exact absurd (hrjeq ▸ hir) (not_lt.mpr (le_of_lt (hlt i (List.mem_cons_self _ _))))
          exact lt_of_lt_of_le (hne hrj) (not_lt.mp hcmp)
        · exact hfirst i hm hir

/-- C4: when the changepoint search runs with a nonempty candidate range, the
selected split index imin is a candidate whose total residual sum of squares
(left fit plus right fit) is minimal, and it is the first such candidate in
ascending index order: every earlier candidate has a strictly larger total
residual. -/
theorem select_split_first_argmin (c : TDConsts) (heights cap : ℕ → ℚ) (pt : ℕ)
    (hne : splitCandidates c pt ≠ []) :
    select_split c heights cap pt ∈ splitCandidates c pt ∧
    (∀ i ∈ splitCandidates c pt,
      totalRms c heights cap pt (select_split c heights cap pt) ≤
        totalRms c heights cap pt i) ∧
    (∀ i ∈ splitCandidates c pt, i < select_split c heights cap pt →
      totalRms c heights cap pt (select_split c heights cap pt) <
        totalRms c heights cap pt i) := by
  obtain ⟨m, hm⟩ : ∃ m, pt - c.nfitmin - (pt - c.nwindow + c.nfitmin) = m + 1 := by
    have h0 : pt - c.nfitmin - (pt - c.nwindow + c.nfitmin) ≠ 0 := by
      intro h0
      apply hne
      rw [splitCandidates, h0]
      rfl
    exact Nat.exists_eq_succ_of_ne_zero h0
  have hcand : splitCandidates c pt =
      (pt - c.nwindow + c.nfitmin) ::
        List.range' (pt - c.nwindow + c.nfitmin + 1) m := by
    rw [splitCandidates, hm, List.range'_succ]
  have hfold : List.foldl (splitStep c heights cap pt)
      (pt - c.nwindow + c.nfitmin, none) (splitCandidates c pt) =
      List.foldl (splitStep c heights cap pt)
        (pt - c.nwindow + c.nfitmin,
          some (totalRms c heights cap pt (pt - c.nwindow + c.nfitmin)))
        (List.range' (pt - c.nwindow + c.nfitmin + 1) m) := by
    rw [hcand, List.foldl_cons]
    rfl
  obtain ⟨r, heq, hmem, hlej, hleall, hnej, hfirst⟩ :=
    splitStep_foldl_spec c heights cap pt
      (List.range' (pt - c.nwindow + c.nfitmin + 1) m) (pt - c.nwindow + c.nfitmin)
      (List.pairwise_lt_range' _ m 1 (by omega))
      (fun i hi => by
        have := (List.mem_range'_1.mp hi).1
        omega)
  have hsel : select_split c heights cap pt = r := by
    rw [select_split, hfold, heq]
  rw [hsel]
  refine ⟨?_, ?_, ?_⟩
  · rw [hcand]
    rcases hmem with rfl | hmm
    · exact List.mem_cons_self _ _
    · exact List.mem_cons_of_mem _ hmm
  · intro i hi
    rw [hcand] at hi
    rcases List.mem_cons.mp hi with rfl | hmm
    · exact hlej
    · exact hleall i hmm
  · intro i hi hir
    rw [hcand] at hi
    rcases List.mem_cons.mp hi with rfl | hmm
    · refine hnej fun hrj => ?_
      rw [hrj] at hir
      exact absurd hir (lt_irrefl _)
    · exact hfirst i hmm hir

theorem select_split_first_argmin_witness :
    splitCandidates (TDConsts.mk 100 0 (1/2) 1 1 3 5) 16 ≠ [] ∧
    (select_split (TDConsts.mk 100 0 (1/2) 1 1 3 5) (fun i => (i : ℚ))
        (fun i => if i ≤ 13 then 0 else (i : ℚ) - 13) 16 ∈
      splitCandidates (TDConsts.mk 100 0 (1/2) 1 1 3 5) 16 ∧
    (∀ i ∈ splitCandidates (TDConsts.mk 100 0 (1/2) 1 1 3 5) 16,
      totalRms (TDConsts.mk 100 0 (1/2) 1 1 3 5) (fun i => (i : ℚ))
          (fun i => if i ≤ 13 then 0 else (i : ℚ) - 13) 16
          (select_split (TDConsts.mk 100 0 (1/2) 1 1 3 5) (fun i => (i : ℚ))
            (fun i => if i ≤ 13 then 0 else (i : ℚ) - 13) 16) ≤
        totalRms (TDConsts.mk 100 0 (1/2) 1 1 3 5) (fun i => (i : ℚ))
          (fun i => if i ≤ 13 then 0 else (i : ℚ) - 13) 16 i) ∧
    (∀ i ∈ splitCandidates (TDConsts.mk 100 0 (1/2) 1 1 3 5) 16,
      i < select_split (TDConsts.mk 100 0 (1/2) 1 1 3 5) (fun i => (i : ℚ))
            (fun i => if i ≤ 13 then 0 else (i : ℚ) - 13) 16 →
      totalRms (TDConsts.mk 100 0 (1/2) 1 1 3 5) (fun i => (i : ℚ))
          (fun i => if i ≤ 13 then 0 else (i : ℚ) - 13) 16
          (select_split (TDConsts.mk 100 0 (1/2) 1 1 3 5) (fun i => (i : ℚ))
            (fun i => if i ≤ 13 then 0 else (i : ℚ) - 13) 16) <
        totalRms (TDConsts.mk 100 0 (1/2) 1 1 3 5) (fun i => (i : ℚ))
          (fun i => if i ≤ 13 then 0 else (i : ℚ) - 13) 16 i)) :=
  ⟨by decide,
   select_split_first_argmin (TDConsts.mk 100 0 (1/2) 1 1 3 5) (fun i => (i : ℚ))
     (fun i => if i ≤ 13 then 0 else (i : ℚ) - 13) 16 (by decide)⟩

/-- Constants for the safety-gate scenarios: max_delta_cap 1, initial_cap 0,
max_slope 1, conversion factor 1, N_fit_min 2, N_fit_max 5, N_window 5. -/
def gateConsts : TDConsts := ⟨1, 0, 1, 1, 2, 5, 5⟩

/-- A signal that is 0 at step 0 and jumps to 100 from step 1 on. -/
def jumpCap : ℕ → ℚ := fun i => if i = 0 then 0 else 100

/-- C5 counterexample: at step pt = 1 at least two samples exist
(cdata = data[:2]) and the latest one is 100 > max_deltaC = 1 away from the
initial value, yet check_for_td returns False, because the source evaluates
the safety gate only for pt > 1. -/
theorem check_for_td_gate_skipped_at_two_samples :
    |jumpCap 1 - gateConsts.initial_cap| > gateConsts.max_deltaC ∧
    (check_for_td gateConsts (fun i => (i : ℚ)) jumpCap 10
      ⟨false, none, none, none, none⟩ 1).1 = false := by
  constructor
  · with_unfolding_all decide
  · with_unfolding_all decide

/-- C5 (amended): at every step with pt > 1, that is once at least three
samples exist, if one of the last two signal samples is more than max_deltaC
away from initial_cap, or one of the last two converted magnitudes exceeds
5 V, then check_for_td returns True at once with no detection state set, and
the result does not depend on the height series at all: no changepoint
regression work is involved. -/
theorem check_for_td_safety_gate (c : TDConsts) (heights cap : ℕ → ℚ) (N : ℕ)
    (prior : TDState) (pt : ℕ) (hpt : 1 < pt)
    (htrip : |cap pt - c.initial_cap| > c.max_deltaC ∨
      |cap (pt - 1) - c.initial_cap| > c.max_deltaC ∨
      |cap pt * c.railScale| > 5 ∨ |cap (pt - 1) * c.railScale| > 5) :
    check_for_td c heights cap N prior pt =
        (true, { prior with td_has_occurred := false, td_height := none }) ∧
      ∀ heights2 : ℕ → ℚ,
        check_for_td c heights2 cap N prior pt =
          check_for_td c heights cap N prior pt := by
  have key : ∀ h2 : ℕ → ℚ, check_for_td c h2 cap N prior pt =
      (true, { prior with td_has_occurred := false, td_height := none }) := by
    intro h2
    simp only [check_for_td]
    by_cases hA : 1 < pt ∧ (|cap pt - c.initial_cap| > c.max_deltaC ∨
        |cap (pt - 1) - c.initial_cap| > c.max_deltaC)
    · rw [if_pos hA]
    · have hB : 1 < pt ∧ (|cap pt * c.railScale| > 5 ∨
          |cap (pt - 1) * c.railScale| > 5) := by
        refine ⟨hpt, ?_⟩
        rcases htrip with h | h | h | h
        · exact absurd ⟨hpt, Or.inl h⟩ hA
        · exact absurd ⟨hpt, Or.inr h⟩ hA
        · exact Or.inl h
        · exact Or.inr h
      rw [if_neg hA, if_pos hB]
  exact ⟨key heights, fun h2 => (key h2).trans (key heights).symm⟩

theorem check_for_td_safety_gate_witness :
    1 < 2 ∧
    |jumpCap 2 - gateConsts.initial_cap| > gateConsts.max_deltaC ∧
    check_for_td gateConsts (fun i => (i : ℚ)) jumpCap 10
        ⟨false, none, none, none, none⟩ 2 =
      (true, ⟨false, none, none, none, none⟩) :=
  ⟨by decide, by with_unfolding_all decide,
   (check_for_td_safety_gate gateConsts (fun i => (i : ℚ)) jumpCap 10
     ⟨false, none, none, none, none⟩ 2 (by decide)
     (Or.inl (by with_unfolding_all decide))).1⟩

/-- C10: the single constant max_slope is both the bound on the pre-split
slope magnitude and the detection threshold; at any step where the
changepoint search runs and the pre-split slope magnitude exceeds max_slope,
check_for_td returns True with td_has_occurred still False: the step is an
abort, and the detection branch is unreachable there regardless of the slope
difference. -/
theorem check_for_td_steep_pre_slope_aborts (c : TDConsts) (heights cap : ℕ → ℚ)
    (N : ℕ) (prior : TDState) (pt : ℕ) (hN : pt < N) (hw : c.nwindow + 10 < pt)
    (hsteep : |(td_fits c heights cap pt).1.1| > c.max_slope) :
    check_for_td c heights cap N prior pt =
        (true, { prior with td_has_occurred := false, td_height := none }) ∧
      (check_for_td c heights cap N prior pt).2.td_has_occurred = false := by
  have key : check_for_td c heights cap N prior pt =
      (true, { prior with td_has_occurred := false, td_height := none }) := by
    simp only [check_for_td]
    by_cases hA : 1 < pt ∧ (|cap pt - c.initial_cap| > c.max_deltaC ∨
        |cap (pt - 1) - c.initial_cap| > c.max_deltaC)
    · rw [if_pos hA]
    · rw [if_neg hA]
      by_cases hB : 1 < pt ∧ (|cap pt * c.railScale| > 5 ∨
          |cap (pt - 1) * c.railScale| > 5)
      · rw [if_pos hB]
      · rw [if_neg hB, if_pos ⟨hN, hw⟩, if_pos hsteep]
  exact ⟨key, by rw [key]⟩

/-- Constants for the steep-pre-slope scenario: a huge delta bound and a tiny
conversion factor keep the safety gates silent. -/
def steepConsts : TDConsts := ⟨1000, 0, 1, 1/1000, 2, 5, 5⟩

theorem check_for_td_steep_pre_slope_aborts_witness :
    16 < 20 ∧ steepConsts.nwindow + 10 < 16 ∧
    |(td_fits steepConsts (fun i => (i : ℚ)) (fun i => 10 * (i : ℚ)) 16).1.1| >
      steepConsts.max_slope ∧
    (check_for_td steepConsts (fun i => (i : ℚ)) (fun i => 10 * (i : ℚ)) 20
        ⟨false, none, none, none, none⟩ 16 =
      (true, ⟨false, none, none, none, none⟩) ∧
    (check_for_td steepConsts (fun i => (i : ℚ)) (fun i => 10 * (i : ℚ)) 20
        ⟨false, none, none, none, none⟩ 16).2.td_has_occurred = false) :=
  ⟨by decide, by decide, by with_unfolding_all decide,
   check_for_td_steep_pre_slope_aborts steepConsts (fun i => (i : ℚ))
     (fun i => 10 * (i : ℚ)) 20 ⟨false, none, none, none, none⟩ 16
     (by decide) (by decide) (by with_unfolding_all decide)⟩

/-- C3: when the safety gates pass, the changepoint search runs, and the
pre-split slope passes the slope check, touchdown is declared
(td_has_occurred = True) exactly when the absolute difference of the two
fitted slopes exceeds max_slope, and in that case the reported height is the
intersection of the two fitted lines,
(intercept_post - intercept_pre) / (slope_pre - slope_post). -/
theorem check_for_td_detection (c : TDConsts) (heights cap : ℕ → ℚ) (N : ℕ)
    (prior : TDState) (pt : ℕ)
    (hg1 : ¬(|cap pt - c.initial_cap| > c.max_deltaC ∨
      |cap (pt - 1) - c.initial_cap| > c.max_deltaC))
    (hg2 : ¬(|cap pt * c.railScale| > 5 ∨ |cap (pt - 1) * c.railScale| > 5))
    (hN : pt < N) (hw : c.nwindow + 10 < pt)
    (hpre : ¬(|(td_fits c heights cap pt).1.1| > c.max_slope)) :
    ((check_for_td c heights cap N prior pt).2.td_has_occurred = true ↔
      |(td_fits c heights cap pt).1.1 - (td_fits c heights cap pt).2.1| >
        c.max_slope) ∧
    ((check_for_td c heights cap N prior pt).2.td_has_occurred = true →
      (check_for_td c heights cap N prior pt).2.td_height =
        some (((td_fits c heights cap pt).2.2 - (td_fits c heights cap pt).1.2) /
          ((td_fits c heights cap pt).1.1 - (td_fits c heights cap pt).2.1))) := by
  simp only [check_for_td]
  rw [if_neg fun h => hg1 h.2, if_neg fun h => hg2 h.2, if_pos ⟨hN, hw⟩,
    if_neg hpre]
  by_cases hdiff : |(td_fits c heights cap pt).1.1 - (td_fits c heights cap pt).2.1| >
      c.max_slope
  · rw [if_pos hdiff]
    exact ⟨⟨fun _ => hdiff, fun _ => rfl⟩, fun _ => rfl⟩
  · rw [if_neg hdiff]
    refine ⟨⟨fun h => ?_, fun h => absurd h hdiff⟩, fun h => ?_⟩ <;>
      exact absurd h (by simp)

/-- Constants for the detection scenario: delta bound 100, initial value 0,
max_slope 1/2, conversion factor 1, N_fit_min 1, N_fit_max 3, N_window 5. -/
def bendConsts : TDConsts := ⟨100, 0, 1/2, 1, 1, 3, 5⟩

/-- A signal that is flat at 0 up to sample 13 and then rises with slope 1:
an exact touchdown bend at height 13. -/
def bendCap : ℕ → ℚ := fun i => if i ≤ 13 then 0 else (i : ℚ) - 13

theorem check_for_td_detection_witness :
    ¬(|bendCap 16 - bendConsts.initial_cap| > bendConsts.max_deltaC ∨
      |bendCap 15 - bendConsts.initial_cap| > bendConsts.max_deltaC) ∧
    ¬(|bendCap 16 * bendConsts.railScale| > 5 ∨
      |bendCap 15 * bendConsts.railScale| > 5) ∧
    16 < 20 ∧ bendConsts.nwindow + 10 < 16 ∧
    ¬(|(td_fits bendConsts (fun i => (i : ℚ)) bendCap 16).1.1| >
      bendConsts.max_slope) ∧
    (((check_for_td bendConsts (fun i => (i : ℚ)) bendCap 20
        ⟨false, none, none, none, none⟩ 16).2.td_has_occurred = true ↔
      |(td_fits bendConsts (fun i => (i : ℚ)) bendCap 16).1.1 -
          (td_fits bendConsts (fun i => (i : ℚ)) bendCap 16).2.1| >
        bendConsts.max_slope) ∧
    ((check_for_td bendConsts (fun i => (i : ℚ)) bendCap 20
        ⟨false, none, none, none, none⟩ 16).2.td_has_occurred = true →
      (check_for_td bendConsts (fun i => (i : ℚ)) bendCap 20
          ⟨false, none, none, none, none⟩ 16).2.td_height =
        some (((td_fits bendConsts (fun i => (i : ℚ)) bendCap 16).2.2 -
            (td_fits bendConsts (fun i => (i : ℚ)) bendCap 16).1.2) /
          ((td_fits bendConsts (fun i => (i : ℚ)) bendCap 16).1.1 -
            (td_fits bendConsts (fun i => (i : ℚ)) bendCap 16).2.1)))) :=
  ⟨by with_unfolding_all decide, by with_unfolding_all decide, by decide, by decide,
   by with_unfolding_all decide,
   check_for_td_detection bendConsts (fun i => (i : ℚ)) bendCap 20
     ⟨false, none, none, none, none⟩ 16 (by with_unfolding_all decide)
     (by with_unfolding_all decide) (by decide) (by decide)
     (by with_unfolding_all decide)⟩

theorem slice_length (f : ℕ → ℚ) (a b : ℕ) : (slice f a b).length = b - a := by
  rw [slice, List.length_map, List.length_range]

theorem slice_linear (heights : ℕ → ℚ) (s b : ℚ) (a b' : ℕ) :
    slice (fun i => s * heights i + b) a b' =
      (slice heights a b').map fun x => s * x + b := by
  rw [slice, slice, List.map_map]
  rfl

theorem sum_map_linear (xs : List ℚ) (s b : ℚ) :
    (xs.map fun x => s * x + b).sum = s * xs.sum + (xs.length : ℚ) * b := by
  induction xs with
  | nil => simp
  | cons x xs ih =>
    simp only [List.map_cons, List.sum_cons, List.length_cons, ih, Nat.cast_succ]
    ring

theorem zipWith_mul_map_linear (xs : List ℚ) (s b : ℚ) :
    (List.zipWith (fun a b2 => a * b2) xs (xs.map fun x => s * x + b)).sum =
      s * (xs.map fun x => x * x).sum + b * xs.sum := by
  induction xs with
  | nil => simp
  | cons x xs ih =>
    simp only [List.map_cons, List.zipWith_cons_cons, List.sum_cons, ih]
    ring

/-- On exactly collinear points the fitted least-squares slope is the true
slope, except in the degenerate case of a vanishing denominator (all x equal
or fewer than two points), where the rational division yields 0. -/
theorem fit_line_slope_linear (xs : List ℚ) (s b : ℚ) :
    (fit_line xs (xs.map fun x => s * x + b)).1.1 = s ∨
    (fit_line xs (xs.map fun x => s * x + b)).1.1 = 0 := by
  simp only [fit_line, sum_map_linear, zipWith_mul_map_linear]
  have hnum : (xs.length : ℚ) * (s * (xs.map fun x => x * x).sum + b * xs.sum) -
      xs.sum * (s * xs.sum + (xs.length : ℚ) * b) =
      s * ((xs.length : ℚ) * (xs.map fun x => x * x).sum - xs.sum * xs.sum) := by
    ring
  rw [hnum]
  by_cases hD : (xs.length : ℚ) * (xs.map fun x => x * x).sum - xs.sum * xs.sum = 0
  · right
    rw [hD, mul_zero, zero_div]
  · left
    rw [mul_div_assoc, div_self hD, mul_one]

theorem td_fits_linear (c : TDConsts) (heights : ℕ → ℚ) (s b : ℚ) (pt : ℕ) :
    ((td_fits c heights (fun i => s * heights i + b) pt).1.1 = s ∨
     (td_fits c heights (fun i => s * heights i + b) pt).1.1 = 0) ∧
    ((td_fits c heights (fun i => s * heights i + b) pt).2.1 = s ∨
     (td_fits c heights (fun i => s * heights i + b) pt).2.1 = 0) := by
  have key : ∀ a b' : ℕ,
      (fit_line (slice heights a b')
        (slice (fun i => s * heights i + b) a b')).1.1 = s ∨
      (fit_line (slice heights a b')
        (slice (fun i => s * heights i + b) a b')).1.1 = 0 := by
    intro a b'
    rw [slice_linear heights s b]
    exact fit_line_slope_linear _ _ _
  unfold td_fits
  exact ⟨key _ _, key _ _⟩

/-- C8: for a flat signal series, one that is an exact linear function of the
height with a single constant slope within the slope bound and values within
the safety bounds at the inspected samples, check_for_td never declares a
touchdown: at every step before the planned number of samples it returns
False with no detection state set, and at the step where the index reaches
the planned number of samples it returns True with the touchdown height and
slopes cleared to None (range exhausted). -/
theorem check_for_td_flat_series (c : TDConsts) (heights : ℕ → ℚ) (N : ℕ)
    (prior : TDState) (s b : ℚ) (pt : ℕ)
    (hslope : |s| ≤ c.max_slope)
    (hd1 : |s * heights pt + b - c.initial_cap| ≤ c.max_deltaC)
    (hd2 : |s * heights (pt - 1) + b - c.initial_cap| ≤ c.max_deltaC)
    (hr1 : |(s * heights pt + b) * c.railScale| ≤ 5)
    (hr2 : |(s * heights (pt - 1) + b) * c.railScale| ≤ 5) :
    (pt < N → check_for_td c heights (fun i => s * heights i + b) N prior pt =
      (false, { prior with td_has_occurred := false, td_height := none })) ∧
    (N ≤ pt → check_for_td c heights (fun i => s * heights i + b) N prior pt =
      (true, { prior with
        td_has_occurred := false
        td_height := none
        plot_td_height := none
        pre_td_slope := none
        post_td_slope := none })) := by
  have hms : (0 : ℚ) ≤ c.max_slope := le_trans (abs_nonneg s) hslope
  obtain ⟨h0a, h0b⟩ := td_fits_linear c heights s b pt
  have hpre : ¬(|(td_fits c heights (fun i => s * heights i + b) pt).1.1| >
      c.max_slope) := by
    rcases h0a with h | h <;> rw [h]
    · exact not_lt.mpr hslope
    · simpa using hms
  have hdiff : ¬(|(td_fits c heights (fun i => s * heights i + b) pt).1.1 -
      (td_fits c heights (fun i => s * heights i + b) pt).2.1| > c.max_slope) := by
    rcases h0a with ha | ha <;> rcases h0b with hb | hb <;> rw [ha, hb]
    · simpa using hms
    · simpa using hslope
    · simpa [abs_neg] using hslope
    · simpa using hms
  have hga : ¬(1 < pt ∧
      (|(fun i => s * heights i + b) pt - c.initial_cap| > c.max_deltaC ∨
       |(fun i => s * heights i + b) (pt - 1) - c.initial_cap| > c.max_deltaC)) := by
    rintro ⟨-, h | h⟩
    · exact absurd h (not_lt.mpr hd1)
    · exact absurd h (not_lt.mpr hd2)
  have hgb : ¬(1 < pt ∧
      (|(fun i => s * heights i + b) pt * c.railScale| > 5 ∨
       |(fun i => s * heights i + b) (pt - 1) * c.railScale| > 5)) := by
    rintro ⟨-, h | h⟩
    · exact absurd h (not_lt.mpr hr1)
    · exact absurd h (not_lt.mpr hr2)
  constructor
  · intro hpt
    simp only [check_for_td]
    rw [if_neg hga, if_neg hgb]
    by_cases hcp : c.nwindow + 10 < pt
    · rw [if_pos ⟨hpt, hcp⟩, if_neg hpre, if_neg hdiff]
    · rw [if_neg fun h => hcp h.2, if_neg (not_le.mpr hpt)]
  · intro hNpt
    simp only [check_for_td]
    rw [if_neg hga, if_neg hgb, if_neg fun h => absurd h.1 (not_lt.mpr hNpt),
      if_pos hNpt]

theorem check_for_td_flat_series_witness :
    |(1 : ℚ) / 10| ≤ bendConsts.max_slope ∧
    |(1 : ℚ) / 10 * (16 : ℚ) + 1 / 2 - bendConsts.initial_cap| ≤
      bendConsts.max_deltaC ∧
    |((1 : ℚ) / 10 * (15 : ℚ) + 1 / 2) * bendConsts.railScale| ≤ 5 ∧
    check_for_td bendConsts (fun i => (i : ℚ))
        (fun i => (1 : ℚ) / 10 * (i : ℚ) + 1 / 2) 20
        ⟨false, none, none, none, none⟩ 16 =
      (false, ⟨false, none, none, none, none⟩) ∧
    check_for_td bendConsts (fun i => (i : ℚ))
        (fun i => (1 : ℚ) / 10 * (i : ℚ) + 1 / 2) 20
        ⟨false, none, none, none, none⟩ 20 =
      (true, ⟨false, none, none, none, none⟩) :=
  ⟨by with_unfolding_all decide, by with_unfolding_all decide,
   by with_unfolding_all decide,
   (check_for_td_flat_series bendConsts (fun i => (i : ℚ)) 20
     ⟨false, none, none, none, none⟩ ((1 : ℚ) / 10) ((1 : ℚ) / 2) 16
     (by with_unfolding_all decide) (by with_unfolding_all decide)
     (by with_unfolding_all decide) (by with_unfolding_all decide)
     (by with_unfolding_all decide)).1 (by decide),
   (check_for_td_flat_series bendConsts (fun i => (i : ℚ)) 20
     ⟨false, none, none, none, none⟩ ((1 : ℚ) / 10) ((1 : ℚ) / 2) 20
     (by with_unfolding_all decide) (by with_unfolding_all decide)
     (by with_unfolding_all decide) (by with_unfolding_all decide)
     (by with_unfolding_all decide)).2 (by decide)⟩

end ScanningSquid
